import Mathlib

/-!
Verification of the Paradrop container-lifecycle and network-plumbing engine
(`paradrop/core/container/dockerapi.py` and `paradrop/core/chute/service.py`).

Python dictionaries are modelled as association lists with first-match lookup
and in-place update (`alistFind` / `alistSet`), machine state (the Docker
daemon's containers, the heap of mutable dictionaries) is passed explicitly,
and fallible Python code is modelled with `Except` where an uncaught exception
corresponds to an `Except.error` result.
-/

namespace Paradrop

/-- First-match lookup in an association list, the model of Python `d[k]` /
`k in d` on dictionaries. -/
def alistFind {α β : Type} [DecidableEq α] : List (α × β) → α → Option β
  | [], _ => Option.none
  | (k, v) :: rest, key => if k = key then some v else alistFind rest key

/-- In-place update of an association list: replace the first entry with the
given key, or append a new entry if the key is absent.  This is the model of
Python `d[k] = v` on dictionaries. -/
def alistSet {α β : Type} [DecidableEq α] : List (α × β) → α → β → List (α × β)
  | [], k, v => [(k, v)]
  | (k1, v1) :: rest, k, v =>
    if k1 = k then (k, v) :: rest else (k1, v1) :: alistSet rest k v

theorem alistFind_alistSet_self {α β : Type} [DecidableEq α]
    (m : List (α × β)) (k : α) (v : β) :
    alistFind (alistSet m k v) k = some v := by
  induction m with
  | nil => simp [alistFind, alistSet]
  | cons hd tl ih =>
    obtain ⟨k1, v1⟩ := hd
    by_cases h : k1 = k
    · simp [alistFind, alistSet, h]
    · simp [alistFind, alistSet, h, ih]

theorem alistFind_alistSet_ne {α β : Type} [DecidableEq α]
    (m : List (α × β)) (k1 k : α) (v : β) (h : k1 ≠ k) :
    alistFind (alistSet m k1 v) k = alistFind m k := by
  induction m with
  | nil => simp [alistFind, alistSet, h]
  | cons hd tl ih =>
    obtain ⟨k2, v2⟩ := hd
    by_cases h2 : k2 = k1
    · subst h2
      simp [alistFind, alistSet, h]
    · by_cases h3 : k2 = k
      · simp [alistFind, alistSet, h2, h3, Ne.symm h]
      · simp [alistFind, alistSet, h2, h3, ih]

theorem alistFind_mem {α β : Type} [DecidableEq α]
    (m : List (α × β)) (k : α) (v : β) (h : alistFind m k = some v) :
    (k, v) ∈ m := by
  induction m with
  | nil => simp [alistFind] at h
  | cons hd tl ih =>
    obtain ⟨k1, v1⟩ := hd
    by_cases h1 : k1 = k
    · subst h1
      simp [alistFind] at h
      simp [h]
    · simp [alistFind, h1] at h
      exact List.mem_cons_of_mem _ (ih h)

theorem alistFind_eq_none_iff {α β : Type} [DecidableEq α]
    (m : List (α × β)) (k : α) :
    alistFind m k = Option.none ↔ k ∉ m.map Prod.fst := by
  induction m with
  | nil => simp [alistFind]
  | cons hd tl ih =>
    obtain ⟨k1, v1⟩ := hd
    by_cases h1 : k1 = k
    · subst h1
      simp [alistFind]
    · simp [alistFind, h1, ih, Ne.symm h1]

theorem alistFind_nodup_mem_eq {α β : Type} [DecidableEq α] :
    ∀ (m : List (α × β)) (k : α) (v : β),
      (m.map Prod.fst).Nodup → alistFind m k = some v →
      ∀ w, (k, w) ∈ m → w = v
  | [], k, v, _, h => by simp [alistFind] at h
  | (k1, v1) :: tl, k, v, hnd, h => by
    simp only [List.map_cons, List.nodup_cons] at hnd
    intro w hw
    rcases List.mem_cons.mp hw with hw1 | hw2
    · simp only [Prod.mk.injEq] at hw1
      obtain ⟨hk, hv⟩ := hw1
      subst hk
      subst hv
      simp [alistFind] at h
      exact h
    · by_cases h1 : k1 = k
      · subst h1
        exact absurd (List.mem_map.mpr ⟨(k1, w), hw2, rfl⟩) hnd.1
      · simp only [alistFind, if_neg h1] at h
        exact alistFind_nodup_mem_eq tl k v hnd.2 h w hw2

theorem alistSet_of_not_mem {α β : Type} [DecidableEq α]
    (m : List (α × β)) (k : α) (v : β) (h : k ∉ m.map Prod.fst) :
    alistSet m k v = m ++ [(k, v)] := by
  induction m with
  | nil => simp [alistSet]
  | cons hd tl ih =>
    obtain ⟨k1, v1⟩ := hd
    simp only [List.map_cons, List.mem_cons] at h
    push_neg at h
    simp [alistSet, Ne.symm h.1, ih h.2]

/-! ## Data model: `Chute` and `Service` (`paradrop/core/chute/service.py`) -/

/-- The chute attributes consumed by the functions under verification: name,
version, and the `web` declaration (`chute.web.get("port")` /
`chute.web.get("service")`). -/
structure Chute where
  name : String
  version : String
  webPort : Option Int := Option.none
  webService : Option String := Option.none
deriving DecidableEq

/-- One container-producing unit of a chute (`class Service`).  The
`requests["port-bindings"]` dictionary is mutable state, represented by a
reference into an explicit heap (`portBindingsRef = none` models the key being
absent from `requests`). -/
structure Service where
  chute : Chute
  name : Option String := Option.none
  type : String := "normal"
  image : Option String := Option.none
  portBindingsRef : Option Nat := Option.none
deriving DecidableEq

/-- `Service.get_container_name`: the chute name for legacy unnamed services,
otherwise `"<chute>-<service>"`. -/
def Service.get_container_name (s : Service) : String :=
  match s.name with
  | Option.none => s.chute.name
  | some n => s.chute.name ++ "-" ++ n

/-- `Service.get_image_name`: if the image is unset or the service type is
`"light"`, synthesize `"<container_name>:<chute.version>"`; otherwise return
the declared image. -/
def Service.get_image_name (s : Service) : String :=
  if s.image.isNone || s.type == "light" then
    s.get_container_name ++ ":" ++ s.chute.version
  else
    s.image.getD ""

/-- A service with no declared image and a non-light type: `get_image_name`
synthesizes a tag instead of returning the declared image field. -/
def svcNoImage : Service :=
  { chute := { name := "foo", version := "1" }, type := "normal" }

/-- C6 counterexample: `svcNoImage` has type `"normal"` (not `"light"`) and no
declared image, yet `get_image_name` returns the synthesized `"foo:1"` rather
than the declared image reference (`None`), so `get_image_name` does not
return the declared image for every non-light service. -/
theorem get_image_name_synthesized_without_declared_image :
    svcNoImage.type ≠ "light" ∧ svcNoImage.image = Option.none ∧
      svcNoImage.get_image_name = "foo:1" ∧
      some svcNoImage.get_image_name ≠ svcNoImage.image := by
  refine ⟨by decide, rfl, rfl, by decide⟩

/-- C6 (amended): for every service whose type is not `"light"` and which
declares an image (`image` is not `None`), `get_image_name` returns the
declared image reference. -/
theorem get_image_name_returns_declared_image
    (s : Service) (img : String)
    (h1 : s.type ≠ "light") (h2 : s.image = some img) :
    s.get_image_name = img := by
  have hb : (s.type == "light") = false := by
    simp [h1]
  simp [Service.get_image_name, h2, hb]

/-- Witness for the amended C6 theorem at a concrete non-light service with a
declared image. -/
theorem get_image_name_returns_declared_image_witness :
    ({ chute := { name := "foo", version := "1" }, type := "image",
       image := some "ubuntu:16.04" } : Service).get_image_name
      = "ubuntu:16.04" :=
  get_image_name_returns_declared_image _ "ubuntu:16.04" (by decide) rfl

/-- C7: for every service of type `"light"`, `get_image_name` equals the
container name joined with the chute version by a colon, regardless of any
declared image field. -/
theorem get_image_name_light_synthesized
    (s : Service) (h : s.type = "light") :
    s.get_image_name = s.get_container_name ++ ":" ++ s.chute.version := by
  simp [Service.get_image_name, h]

/-- Witness for C7 at a concrete light service that also declares an image
(`"python2"`): the declared image is ignored and the synthesized name is
`"foo-main:1"`. -/
theorem get_image_name_light_synthesized_witness :
    ({ chute := { name := "foo", version := "1" }, name := some "main",
       type := "light", image := some "python2" } : Service).get_image_name
      = "foo-main:1" := by
  have h := get_image_name_light_synthesized
    { chute := { name := "foo", version := "1" }, name := some "main",
      type := "light", image := some "python2" } rfl
  simpa using h

/-! ## Port Binding Resolver (`prepare_port_bindings`, dockerapi.py 389-426) -/

/-- A key of the port-bindings dictionary: Python allows both integer keys
(`80`) and string keys (`"80"`, `"80/tcp"`). -/
inductive PKey
  | int (n : Int)
  | str (s : String)
deriving DecidableEq

/-- A value of the port-bindings dictionary: Python `None` (host port left for
Docker to assign) or an explicit host port given as a string or an integer. -/
inductive PyVal
  | none
  | str (s : String)
  | int (n : Int)
deriving DecidableEq

/-- The port-bindings dictionary, keyed by container port. -/
abbrev PBMap := List (PKey × PyVal)

/-- One entry of `data["NetworkSettings"]["Ports"][key]` in the inspect output
of a running container: a record carrying the assigned `HostPort`. -/
structure PortRec where
  HostPort : String
deriving DecidableEq

/-- The state of one running container as far as these functions observe it:
its actual port map and its process id. -/
structure ContainerInfo where
  ports : List (PKey × List PortRec) := []
  pid : Nat := 0
deriving DecidableEq

/-- The containers currently known to the Docker daemon, keyed by container
name. -/
structure DockerState where
  containers : List (String × ContainerInfo) := []
deriving DecidableEq

/-- Modelled from the spec: `ChuteContainer` (module `chutecontainer`, not
under src/) inspects the named container and yields its *actual* assigned
host ports (`data["NetworkSettings"]["Ports"]`); a missing container raises
`ChuteNotFound`, modelled as `none` here and caught by the caller. -/
def inspect_ports (st : DockerState) (name : String) :
    Option (List (PKey × List PortRec)) :=
  (alistFind st.containers name).map (fun info => info.ports)

/-- The heap of mutable port-bindings dictionaries.  `mem` gives the contents
of each reference and `next` is the next fresh reference;
`service.requests["port-bindings"]` is a reference into this heap, and
`dict.copy()` allocates a fresh reference. -/
structure Heap where
  mem : Nat → PBMap
  next : Nat

/-- The web-port insertion step of `prepare_port_bindings`: if the chute
declares a web port served by this service and none of the equivalent key
spellings (bare port, string port, `"port/tcp"`) is already bound, insert an
unbound (`None`) entry under `"port/tcp"`. -/
def web_insert (s : Service) (b0 : PBMap) : PBMap :=
  match s.chute.webPort with
  | some wp =>
    if s.chute.webService = s.name then
      let keys : List PKey := [.int wp, .str (toString wp), .str (toString wp ++ "/tcp")]
      if keys.any (fun k => (alistFind b0 k).isSome) then b0
      else alistSet b0 (.str (toString wp ++ "/tcp")) PyVal.none
    else b0
  | Option.none => b0

/-- The inheritance loop of `prepare_port_bindings`: for every binding whose
value is `None` and whose key is present in the old container's port map, set
it to `old_bindings[key][0]["HostPort"]`.  Indexing `[0]` into an empty entry
raises `IndexError`. -/
def inherit_loop (old_bindings : List (PKey × List PortRec)) :
    List (PKey × PyVal) → PBMap → Except String PBMap
  | [], acc => Except.ok acc
  | (key, value) :: rest, acc =>
    if value = PyVal.none then
      match alistFind old_bindings key with
      | some recs =>
        match recs with
        | [] => Except.error "IndexError"
        | r0 :: _ => inherit_loop old_bindings rest (alistSet acc key (PyVal.str r0.HostPort))
      | Option.none => inherit_loop old_bindings rest acc
    else inherit_loop old_bindings rest acc

/-- `service.requests.get("port-bindings", {})`: the contents of the service's
port-bindings dictionary, or the empty map when the key is absent. -/
def requested_bindings (h : Heap) (s : Service) : PBMap :=
  match s.portBindingsRef with
  | some r => h.mem r
  | Option.none => []

/-- The `try: ... except ChuteNotFound: old_bindings = {}` step: the actual
port map of the previously running container with this service's container
name, or the empty map when no such container exists. -/
def old_port_bindings (st : DockerState) (s : Service) :
    List (PKey × List PortRec) :=
  match inspect_ports st s.get_container_name with
  | some p => p
  | Option.none => []

/-- `prepare_port_bindings(service)`: copy the requested port-bindings map,
insert a blank web-port entry if needed, then inherit host ports from the
previously running container of the same name for every binding whose host
port is unspecified.  Returns the resolved map (or the uncaught exception)
together with the resulting heap; the copy (`dict.copy()`) allocates a fresh
reference `h.next` and all writes go to it. -/
def prepare_port_bindings (st : DockerState) (h : Heap) (s : Service) :
    Except String PBMap × Heap :=
  let b1 := web_insert s (requested_bindings h s)
  match inherit_loop (old_port_bindings st s) b1 b1 with
  | Except.ok m =>
    (Except.ok m, { mem := fun i => if i = h.next then m else h.mem i, next := h.next + 1 })
  | Except.error e =>
    (Except.error e, { mem := fun i => if i = h.next then b1 else h.mem i, next := h.next + 1 })

theorem inherit_loop_preserve (ob : List (PKey × List PortRec)) :
    ∀ (items : List (PKey × PyVal)) (acc m : PBMap) (k : PKey) (v : PyVal),
      v ≠ PyVal.none → (∀ w, (k, w) ∈ items → w = v) →
      inherit_loop ob items acc = Except.ok m →
      alistFind acc k = some v → alistFind m k = some v
  | [], acc, m, k, v, _, _, hok, hacc => by
    simp only [inherit_loop, Except.ok.injEq] at hok
    rw [← hok]; exact hacc
  | (key, value) :: rest, acc, m, k, v, hv, hmem, hok, hacc => by
    have hrest : ∀ w, (k, w) ∈ rest → w = v := fun w hw =>
      hmem w (List.mem_cons_of_mem _ hw)
    by_cases hk : key = k
    · subst hk
      have : value = v := hmem value (List.mem_cons_self _ _)
      subst this
      rw [inherit_loop, if_neg hv] at hok
      exact inherit_loop_preserve ob rest acc m key value hv hrest hok hacc
    · rw [inherit_loop] at hok
      by_cases hvn : value = PyVal.none
      · rw [if_pos hvn] at hok
        cases hfind : alistFind ob key with
        | none =>
          rw [hfind] at hok
          exact inherit_loop_preserve ob rest acc m k v hv hrest hok hacc
        | some recs =>
          rw [hfind] at hok
          cases recs with
          | nil => exact absurd hok (by simp)
          | cons r0 rtl =>
            have hacc2 : alistFind (alistSet acc key (PyVal.str r0.HostPort)) k = some v := by
              rw [alistFind_alistSet_ne _ _ _ _ hk]; exact hacc
            exact inherit_loop_preserve ob rest _ m k v hv hrest hok hacc2
      · rw [if_neg hvn] at hok
        exact inherit_loop_preserve ob rest acc m k v hv hrest hok hacc

theorem inherit_loop_sets (ob : List (PKey × List PortRec)) :
    ∀ (items : List (PKey × PyVal)) (acc m : PBMap) (k : PKey)
      (r0 : PortRec) (rtl : List PortRec),
      alistFind ob k = some (r0 :: rtl) →
      (∀ w, (k, w) ∈ items → w = PyVal.none) →
      inherit_loop ob items acc = Except.ok m →
      ((k, PyVal.none) ∈ items ∨ alistFind acc k = some (PyVal.str r0.HostPort)) →
      alistFind m k = some (PyVal.str r0.HostPort)
  | [], acc, m, k, r0, rtl, _, _, hok, hdisj => by
    simp only [inherit_loop, Except.ok.injEq] at hok
    rcases hdisj with hin | hacc
    · exact absurd hin (List.not_mem_nil _)
    · rw [← hok]; exact hacc
  | (key, value) :: rest, acc, m, k, r0, rtl, hob, hmem, hok, hdisj => by
    have hrest : ∀ w, (k, w) ∈ rest → w = PyVal.none := fun w hw =>
      hmem w (List.mem_cons_of_mem _ hw)
    by_cases hk : key = k
    · subst hk
      have hval : value = PyVal.none := hmem value (List.mem_cons_self _ _)
      subst hval
      rw [inherit_loop, if_pos rfl, hob] at hok
      have hacc2 : alistFind (alistSet acc key (PyVal.str r0.HostPort)) key
          = some (PyVal.str r0.HostPort) := alistFind_alistSet_self _ _ _
      exact inherit_loop_sets ob rest _ m key r0 rtl hob hrest hok (Or.inr hacc2)
    · rw [inherit_loop] at hok
      have hdisj2 : ((k, PyVal.none) ∈ rest ∨ alistFind acc k = some (PyVal.str r0.HostPort)) := by
        rcases hdisj with hin | hacc
        · rcases List.mem_cons.mp hin with h1 | h2
          · exact absurd (congrArg Prod.fst h1).symm hk
          · exact Or.inl h2
        · exact Or.inr hacc
      by_cases hvn : value = PyVal.none
      · rw [if_pos hvn] at hok
        cases hfind : alistFind ob key with
        | none =>
          rw [hfind] at hok
          exact inherit_loop_sets ob rest acc m k r0 rtl hob hrest hok hdisj2
        | some recs =>
          rw [hfind] at hok
          cases recs with
          | nil => exact absurd hok (by simp)
          | cons q0 qtl =>
            have hdisj3 : ((k, PyVal.none) ∈ rest ∨
                alistFind (alistSet acc key (PyVal.str q0.HostPort)) k
                  = some (PyVal.str r0.HostPort)) := by
              rcases hdisj2 with hin | hacc
              · exact Or.inl hin
              · refine Or.inr ?_
                rw [alistFind_alistSet_ne _ _ _ _ hk]
                exact hacc
            exact inherit_loop_sets ob rest _ m k r0 rtl hob hrest hok hdisj3
      · rw [if_neg hvn] at hok
        exact inherit_loop_sets ob rest acc m k r0 rtl hob hrest hok hdisj2

theorem web_insert_mem_of_isSome (s : Service) (b0 : PBMap) (k : PKey)
    (hk : (alistFind b0 k).isSome) (w : PyVal) :
    ((k, w) ∈ web_insert s b0 ↔ (k, w) ∈ b0) := by
  unfold web_insert
  cases hwp : s.chute.webPort with
  | none => exact Iff.rfl
  | some wp =>
    dsimp only
    by_cases hws : s.chute.webService = s.name
    · rw [if_pos hws]
      set keys : List PKey :=
        [PKey.int wp, PKey.str (toString wp), PKey.str (toString wp ++ "/tcp")] with hkeys
      by_cases hany : keys.any (fun q => (alistFind b0 q).isSome)
      · rw [if_pos hany]
      · rw [if_neg hany]
        have hwk : alistFind b0 (PKey.str (toString wp ++ "/tcp")) = Option.none := by
          simp only [List.any_eq_true, not_exists, not_and] at hany
          have := hany (PKey.str (toString wp ++ "/tcp"))
            (by simp [hkeys])
          cases hf : alistFind b0 (PKey.str (toString wp ++ "/tcp")) with
          | none => rfl
          | some v => rw [hf] at this; simp at this
        have hne : PKey.str (toString wp ++ "/tcp") ≠ k := by
          intro heq
          rw [heq] at hwk
          rw [hwk] at hk
          simp at hk
        rw [alistSet_of_not_mem _ _ _ ((alistFind_eq_none_iff _ _).mp hwk)]
        simp only [List.mem_append, List.mem_singleton, Prod.mk.injEq]
        constructor
        · rintro (hin | ⟨hkk, -⟩)
          · exact hin
          · exact absurd hkk.symm hne
        · exact fun hin => Or.inl hin
    · rw [if_neg hws]

theorem web_insert_keeps_binding (s : Service) (b0 : PBMap) (k : PKey)
    (v : PyVal) (hk : alistFind b0 k = some v) :
    (k, v) ∈ web_insert s b0 :=
  (web_insert_mem_of_isSome s b0 k (by simp [hk]) v).mpr (alistFind_mem _ _ _ hk)

theorem prepare_port_bindings_fst (st : DockerState) (h : Heap) (s : Service) :
    (prepare_port_bindings st h s).1 =
      inherit_loop (old_port_bindings st s)
        (web_insert s (requested_bindings h s))
        (web_insert s (requested_bindings h s)) := by
  simp only [prepare_port_bindings]
  split <;> simp_all

/-- C1: whenever `prepare_port_bindings` returns a resolved map, a requested
binding whose host port is unspecified (`None`) and whose container-port key
appears in the previously running container's actual port map is resolved to
that container's assigned `HostPort`, and a requested binding with an explicit
host port is returned unchanged (never overridden). -/
theorem prepare_port_bindings_inherits
    (st : DockerState) (h : Heap) (s : Service) (ref : Nat) (m : PBMap)
    (k : PKey) (info : ContainerInfo)
    (href : s.portBindingsRef = some ref)
    (hnd : ((h.mem ref).map Prod.fst).Nodup)
    (hc : alistFind st.containers s.get_container_name = some info)
    (hok : (prepare_port_bindings st h s).1 = Except.ok m) :
    (∀ r0 rtl, alistFind (h.mem ref) k = some PyVal.none →
       alistFind info.ports k = some (r0 :: rtl) →
       alistFind m k = some (PyVal.str r0.HostPort))
  ∧ (∀ v, alistFind (h.mem ref) k = some v → v ≠ PyVal.none →
       alistFind m k = some v) := by
  have hb0 : requested_bindings h s = h.mem ref := by
    simp [requested_bindings, href]
  have hold : old_port_bindings st s = info.ports := by
    simp [old_port_bindings, inspect_ports, hc]
  rw [prepare_port_bindings_fst, hb0, hold] at hok
  constructor
  · intro r0 rtl hfind hports
    have hmem1 : (k, PyVal.none) ∈ web_insert s (h.mem ref) :=
      web_insert_keeps_binding s _ k PyVal.none hfind
    have hall : ∀ w, (k, w) ∈ web_insert s (h.mem ref) → w = PyVal.none := by
      intro w hw
      have hw0 : (k, w) ∈ h.mem ref :=
        (web_insert_mem_of_isSome s _ k (by simp [hfind]) w).mp hw
      exact alistFind_nodup_mem_eq _ k PyVal.none hnd hfind w hw0
    exact inherit_loop_sets info.ports _ _ m k r0 rtl hports hall hok (Or.inl hmem1)
  · intro v hfind hv
    have hall : ∀ w, (k, w) ∈ web_insert s (h.mem ref) → w = v := by
      intro w hw
      have hw0 : (k, w) ∈ h.mem ref :=
        (web_insert_mem_of_isSome s _ k (by simp [hfind]) w).mp hw
      exact alistFind_nodup_mem_eq _ k v hnd hfind w hw0
    have hacc : alistFind (web_insert s (h.mem ref)) k = some v := by
      cases hf : alistFind (web_insert s (h.mem ref)) k with
      | none =>
        have := (alistFind_eq_none_iff _ _).mp hf
        exact absurd (List.mem_map.mpr
          ⟨(k, v), web_insert_keeps_binding s _ k v hfind, rfl⟩) this
      | some w =>
        have hwmem : (k, w) ∈ web_insert s (h.mem ref) := alistFind_mem _ _ _ hf
        rw [hall w hwmem]
    exact inherit_loop_preserve info.ports _ _ m k v hv hall hok hacc

/-- The state used by the C1 witness: the old container `"app"` is running
with actual binding `{"80/tcp": [{"HostPort": "8080"}]}`. -/
def c1State : DockerState :=
  { containers := [("app", { ports := [(PKey.str "80/tcp", [⟨"8080"⟩])], pid := 7 })] }

/-- The service used by the C1 witness: legacy single-service chute `"app"`
whose requested bindings (heap reference 0) are `{"80/tcp": None}`. -/
def c1Service : Service :=
  { chute := { name := "app", version := "2" }, portBindingsRef := some 0 }

/-- The heap used by the C1 witness. -/
def c1Heap : Heap :=
  { mem := fun i => if i = 0 then [(PKey.str "80/tcp", PyVal.none)] else [],
    next := 1 }

/-- Witness for C1 at the spec's concrete example: old bindings
`{"80/tcp": [{"HostPort": "8080"}]}` and new binding `{"80/tcp": None}`
resolve to `{"80/tcp": "8080"}`. -/
theorem prepare_port_bindings_inherits_witness :
    (prepare_port_bindings c1State c1Heap c1Service).1
      = Except.ok [(PKey.str "80/tcp", PyVal.str "8080")] ∧
    alistFind [(PKey.str "80/tcp", PyVal.str "8080")] (PKey.str "80/tcp")
      = some (PyVal.str "8080") := by
  refine ⟨rfl, ?_⟩
  exact (prepare_port_bindings_inherits c1State c1Heap c1Service 0
    [(PKey.str "80/tcp", PyVal.str "8080")] (PKey.str "80/tcp")
    { ports := [(PKey.str "80/tcp", [⟨"8080"⟩])], pid := 7 }
    rfl (by decide) rfl rfl).1 ⟨"8080"⟩ [] rfl rfl

/-- C10: `prepare_port_bindings` never mutates the service's
`requests["port-bindings"]` dictionary: it operates on a fresh copy, so the
heap cell holding the service's map is unchanged by the call. -/
theorem prepare_port_bindings_no_mutation
    (st : DockerState) (h : Heap) (s : Service) (ref : Nat)
    (_href : s.portBindingsRef = some ref) (hlt : ref < h.next) :
    ((prepare_port_bindings st h s).2).mem ref = h.mem ref := by
  have hne : ref ≠ h.next := Nat.ne_of_lt hlt
  simp only [prepare_port_bindings]
  split <;> simp [hne]

/-- Witness for C10 at the C1 scenario: after the call that inherits the old
host port, the service's requested map at reference 0 still reads
`{"80/tcp": None}`. -/
theorem prepare_port_bindings_no_mutation_witness :
    (0 : Nat) < c1Heap.next ∧
    ((prepare_port_bindings c1State c1Heap c1Service).2).mem 0 = c1Heap.mem 0 ∧
    c1Heap.mem 0 = [(PKey.str "80/tcp", PyVal.none)] :=
  ⟨by decide,
   prepare_port_bindings_no_mutation c1State c1Heap c1Service 0 rfl (by decide),
   by decide⟩

/-! ## Container stop/restart (`stopChute` / `restartChute`, dockerapi.py 340-366) -/

/-- The runtime call issued on the container found by `stopChute` /
`restartChute`. -/
inductive ContainerAction
  | stop (name : String)
  | start (name : String)
deriving DecidableEq

/-- `stopChute(update)`: look up the container named `update.name` (the chute
name) and issue `stop()` on it; a missing container surfaces as the runtime's
not-found error, which propagates to the caller. -/
def stopChute (st : DockerState) (updateName : String) :
    Except String ContainerAction :=
  match alistFind st.containers updateName with
  | some _ => Except.ok (ContainerAction.stop updateName)
  | Option.none => Except.error "NotFound"

/-- `restartChute(update)`: look up the container named `update.name` and
issue `start()` on it; a missing container surfaces as the runtime's
not-found error, which propagates to the caller. -/
def restartChute (st : DockerState) (updateName : String) :
    Except String ContainerAction :=
  match alistFind st.containers updateName with
  | some _ => Except.ok (ContainerAction.start updateName)
  | Option.none => Except.error "NotFound"

/-- The service used by the C5 counterexample: chute `"foo"` with a named
service `"main"`, whose container name is `"foo-main"`. -/
def c5Service : Service :=
  { chute := { name := "foo", version := "1" }, name := some "main" }

/-- The Docker state used by the C5 counterexample: the service's container
`"foo-main"` exists; no container is named `"foo"`. -/
def c5State : DockerState :=
  { containers := [("foo-main", { pid := 11 })] }

/-- C5 counterexample: the service's container name is `"foo-main"` and that
container exists, yet `stopChute` and `restartChute` fail with not-found
because they look the container up under the chute name `"foo"` (the update's
name), not under the service's container name. -/
theorem stopChute_ignores_service_container_name :
    c5Service.get_container_name = "foo-main" ∧
    (alistFind c5State.containers c5Service.get_container_name).isSome = true ∧
    stopChute c5State "foo" = Except.error "NotFound" ∧
    restartChute c5State "foo" = Except.error "NotFound" := by
  refine ⟨rfl, by decide, rfl, rfl⟩

/-- C5 (amended): `stopChute` and `restartChute` look the container up under
the update's chute name (`update.name`) — which coincides with the service's
container name only for legacy unnamed services — and when no container with
that name exists the not-found error propagates to the caller. -/
theorem stop_restart_lookup_by_update_name
    (st : DockerState) (updateName : String) :
    (alistFind st.containers updateName = Option.none →
      stopChute st updateName = Except.error "NotFound" ∧
      restartChute st updateName = Except.error "NotFound") ∧
    ((alistFind st.containers updateName).isSome →
      stopChute st updateName = Except.ok (ContainerAction.stop updateName) ∧
      restartChute st updateName = Except.ok (ContainerAction.start updateName)) ∧
    (∀ ch : Chute,
      (({ chute := ch } : Service)).get_container_name = ch.name) := by
  refine ⟨?_, ?_, fun ch => rfl⟩
  · intro hnone
    simp [stopChute, restartChute, hnone]
  · intro hsome
    cases hf : alistFind st.containers updateName with
    | none => rw [hf] at hsome; simp at hsome
    | some c => simp [stopChute, restartChute, hf]

/-- Witness for the amended C5 theorem: on a state holding only `"foo-main"`,
the lookup of `"foo"` misses and both operations propagate not-found, while
the lookup of `"foo-main"` succeeds. -/
theorem stop_restart_lookup_by_update_name_witness :
    (stopChute c5State "foo" = Except.error "NotFound" ∧
      restartChute c5State "foo" = Except.error "NotFound") ∧
    (stopChute c5State "foo-main" = Except.ok (ContainerAction.stop "foo-main") ∧
      restartChute c5State "foo-main" = Except.ok (ContainerAction.start "foo-main")) :=
  ⟨(stop_restart_lookup_by_update_name c5State "foo").1 (by decide),
   (stop_restart_lookup_by_update_name c5State "foo-main").2.1 (by decide)⟩

/-! ## Image build (`_build_image`, dockerapi.py 255-296) -/

/-- Prefix test on lists: does the first list occur at the head of the
second? -/
def listHasPrefix {α : Type} [DecidableEq α] : List α → List α → Bool
  | [], _ => true
  | _ :: _, [] => false
  | a :: xs, b :: ys => if a = b then listHasPrefix xs ys else false

/-- Substring (contiguous sublist) test: does the first list occur inside the
second?  This is the model of Python's `in` operator on strings. -/
def listHasSub {α : Type} [DecidableEq α] : List α → List α → Bool
  | p, [] => p.isEmpty
  | p, b :: ys => listHasPrefix p (b :: ys) || listHasSub p ys

/-- `'errorDetail' in line` for a raw stream line: Python's `in` on strings is
a substring test. -/
def hasErrorDetail (line : String) : Bool :=
  listHasSub "errorDetail".data line.data

/-- One parsed record of the build output stream, modelled as a flat JSON
object mapping keys to string values. -/
abbrev JRecord := List (String × String)

/-- Serialization of one field of a stream record, as the Docker daemon emits
it on the wire (`"key": "value"`). -/
def renderField (kv : String × String) : String :=
  "\"" ++ kv.1 ++ "\": \"" ++ kv.2 ++ "\""

/-- Serialization of the fields of a stream record, comma-separated. -/
def renderFields : JRecord → String
  | [] => ""
  | kv :: rest =>
    renderField kv ++ (if rest.isEmpty then "" else ", ") ++ renderFields rest

/-- Serialization of a whole stream record as one raw JSON line. -/
def render (r : JRecord) : String :=
  "\x7b" ++ renderFields r ++ "\x7d"

/-- `_build_image`: for a light service an invalid synthesized Dockerfile
fails fast (the `Dockerfile` class is not under src/; modelled from the spec:
"synthesis fails fast with a validation error if the spec is inconsistent",
abstracted by the `dockerfileValid` flag); otherwise the build output stream
is scanned and the build error is raised exactly when some raw line passes the
`'errorDetail' in line` substring test. -/
def build_image (serviceType : String) (dockerfileValid : Bool)
    (lines : List String) : Except String Unit :=
  if serviceType == "light" && !dockerfileValid then
    Except.error "Invalid configuration"
  else if lines.any hasErrorDetail then
    Except.error "Error building Docker image"
  else
    Except.ok ()

theorem listHasPrefix_self_append {α : Type} [DecidableEq α] (p t : List α) :
    listHasPrefix p (p ++ t) = true := by
  induction p with
  | nil => simp [listHasPrefix]
  | cons a xs ih => simp [listHasPrefix, ih]

theorem listHasSub_self_append {α : Type} [DecidableEq α] (p t : List α) :
    listHasSub p (p ++ t) = true := by
  cases p with
  | nil =>
    cases t with
    | nil => simp [listHasSub, List.isEmpty]
    | cons b ys => simp [listHasSub, listHasPrefix]
  | cons a xs =>
    rw [List.cons_append, listHasSub]
    rw [← List.cons_append, listHasPrefix_self_append]
    simp

theorem listHasSub_append_right {α : Type} [DecidableEq α] (p a b : List α)
    (h : listHasSub p b = true) : listHasSub p (a ++ b) = true := by
  induction a with
  | nil => simpa using h
  | cons x xs ih =>
    rw [List.cons_append, listHasSub, ih]
    simp

theorem listHasSub_of_parts {α : Type} [DecidableEq α] (p s t : List α) :
    listHasSub p (s ++ p ++ t) = true := by
  rw [List.append_assoc]
  exact listHasSub_append_right p s (p ++ t) (listHasSub_self_append p t)

theorem hasErrorDetail_renderField (v : String) :
    hasErrorDetail (renderField ("errorDetail", v)) = true := by
  have hdata : (renderField ("errorDetail", v)).data
      = "\"".data ++ "errorDetail".data ++ ("\": \"" ++ v ++ "\"").data := by
    simp [renderField, String.data_append]
  rw [hasErrorDetail, hdata]
  exact listHasSub_of_parts _ _ _

theorem listHasPrefix_append_ext {α : Type} [DecidableEq α] :
    ∀ (p l m : List α), listHasPrefix p l = true → listHasPrefix p (l ++ m) = true
  | [], _, _, _ => by simp [listHasPrefix]
  | c :: cs, [], m, hp => by simp [listHasPrefix] at hp
  | c :: cs, d :: ds, m, hp => by
    rw [listHasPrefix] at hp
    by_cases hcd : c = d
    · rw [if_pos hcd] at hp
      rw [List.cons_append, listHasPrefix, if_pos hcd]
      exact listHasPrefix_append_ext cs ds m hp
    · rw [if_neg hcd] at hp
      exact absurd hp (by simp)

theorem listHasSub_nil_pattern {α : Type} [DecidableEq α] (l : List α) :
    listHasSub ([] : List α) l = true := by
  cases l with
  | nil => rfl
  | cons x xs => rw [listHasSub, listHasPrefix]; simp

theorem listHasSub_append_left {α : Type} [DecidableEq α] :
    ∀ (p a b : List α), listHasSub p a = true → listHasSub p (a ++ b) = true
  | p, [], b, h => by
    rw [listHasSub] at h
    have hp : p = [] := by
      cases p with
      | nil => rfl
      | cons x xs => simp [List.isEmpty] at h
    subst hp
    rw [List.nil_append]
    exact listHasSub_nil_pattern b
  | p, x :: xs, b, h => by
    rw [listHasSub] at h
    rcases Bool.or_eq_true_iff.mp h with hpre | hsub
    · have hext := listHasPrefix_append_ext p (x :: xs) b hpre
      rw [List.cons_append] at hext
      rw [List.cons_append, listHasSub, hext]
      simp
    · rw [List.cons_append, listHasSub, listHasSub_append_left p xs b hsub]
      simp

theorem hasErrorDetail_append (a b : String) :
    hasErrorDetail a = true ∨ hasErrorDetail b = true →
    hasErrorDetail (a ++ b) = true := by
  rintro (ha | hb)
  · rw [hasErrorDetail] at ha ⊢
    rw [String.data_append]
    exact listHasSub_append_left _ _ _ ha
  · rw [hasErrorDetail] at hb ⊢
    rw [String.data_append]
    exact listHasSub_append_right _ _ _ hb

theorem hasErrorDetail_of_key (r : JRecord) (v : String)
    (h : ("errorDetail", v) ∈ r) : hasErrorDetail (render r) = true := by
  have hfields : hasErrorDetail (renderFields r) = true := by
    induction r with
    | nil => simp at h
    | cons kv rest ih =>
      rw [renderFields]
      rcases List.mem_cons.mp h with h1 | h2
      · rw [← h1]
        exact hasErrorDetail_append _ _
          (Or.inl (hasErrorDetail_append _ _ (Or.inl (hasErrorDetail_renderField v))))
      · exact hasErrorDetail_append _ _ (Or.inr (ih h2))
  rw [render]
  exact hasErrorDetail_append _ _
    (Or.inl (hasErrorDetail_append _ _ (Or.inr hfields)))

/-- The record used by the C2 counterexample: a status line whose *value*
mentions `errorDetail` but which has no `errorDetail` key. -/
def c2Record : JRecord := [("status", "errorDetail")]

/-- C2 counterexample: a build stream consisting of the single record
`{"status": "errorDetail"}` has no record with an `errorDetail` key, yet
`_build_image` raises the build error, because `'errorDetail' in line` is a
substring test on the raw JSON line, not a key test on the parsed record. -/
theorem build_image_raises_without_errorDetail_key :
    ("errorDetail" ∉ c2Record.map Prod.fst) ∧
    build_image "normal" true [render c2Record]
      = Except.error "Error building Docker image" := by
  exact ⟨by decide, rfl⟩

/-- C2 (amended): when the light-Dockerfile validation does not intervene, the
build error is raised exactly when some raw line of the stream contains
`"errorDetail"` as a substring; every record carrying an `errorDetail` key
still raises (its serialization contains the substring), but a record that
merely mentions `errorDetail` inside a value raises as well. -/
theorem build_image_error_iff_substring (serviceType : String)
    (records : List JRecord) :
    (build_image serviceType true (records.map render)
        = Except.error "Error building Docker image"
      ↔ (records.map render).any hasErrorDetail = true) ∧
    (∀ r ∈ records, ∀ v, ("errorDetail", v) ∈ r →
      build_image serviceType true (records.map render)
        = Except.error "Error building Docker image") := by
  constructor
  · constructor
    · intro h
      by_cases hany : (records.map render).any hasErrorDetail = true
      · exact hany
      · rw [build_image, if_neg (by simp), if_neg hany] at h
        exact absurd h (by simp)
    · intro hany
      rw [build_image, if_neg (by simp), if_pos hany]
  · intro r hr v hv
    have hline : hasErrorDetail (render r) = true := hasErrorDetail_of_key r v hv
    have hany : (records.map render).any hasErrorDetail = true :=
      List.any_eq_true.mpr ⟨render r, List.mem_map.mpr ⟨r, hr, rfl⟩, hline⟩
    rw [build_image, if_neg (by simp), if_pos hany]

/-- Witness for the amended C2 theorem: a stream whose only record is
`{"errorDetail": "..."}` raises, and a stream whose only record is
`{"status": "ok"}` completes without raising. -/
theorem build_image_error_iff_substring_witness :
    build_image "normal" true ([[("errorDetail", "oops")]].map render)
      = Except.error "Error building Docker image" ∧
    build_image "normal" true ([[("status", "ok")]].map render)
      = Except.ok () :=
  ⟨(build_image_error_iff_substring "normal" [[("errorDetail", "oops")]]).2
      [("errorDetail", "oops")] (by decide) "oops" (by decide),
   rfl⟩

/-! ## Image pull (`_pull_image`, dockerapi.py 299-337) -/

/-- Python whitespace for `str.strip()`. -/
def pyIsSpace (c : Char) : Bool :=
  c = ' ' || c = '\t' || c = '\n' || c = '\r' || c = '\x0b' || c = '\x0c'

/-- Model of Python `str.strip()`: drop leading and trailing whitespace. -/
def pyStrip (s : String) : String :=
  String.mk (((s.data.dropWhile pyIsSpace).reverse.dropWhile pyIsSpace).reverse)

/-- ASCII lowercase conversion of one character, as Python `str.lower()` does
for the ASCII range. -/
def pyLowerChar (c : Char) : Char :=
  if 'A' ≤ c ∧ c ≤ 'Z' then Char.ofNat (c.toNat + 32) else c

/-- Model of Python `str.lower()`. -/
def pyLower (s : String) : String :=
  String.mk (s.data.map pyLowerChar)

/-- One parsed JSON record of the pull output stream: the optional `status`
and `id` fields and the optional `progressDetail` object (`none` models an
absent key, `some []` an empty object). -/
structure PullLine where
  status : Option String := Option.none
  id : Option String := Option.none
  progressDetail : Option (List (String × String)) := Option.none
deriving DecidableEq

/-- One iteration of the `_pull_image` stream loop acting on the
`(layers, complete)` counters: lines with a non-empty `progressDetail` are
suppressed, lines missing `status` or `id` are skipped, and otherwise the
stripped, lowercased status increments the matching counter. -/
def pull_step (acc : Nat × Nat) (data : PullLine) : Nat × Nat :=
  if data.progressDetail.getD [] = [] then
    if data.status.isNone || data.id.isNone then acc
    else
      if pyLower (pyStrip (data.status.getD "")) = "pulling fs layer" then
        (acc.1 + 1, acc.2)
      else if pyLower (pyStrip (data.status.getD "")) = "pull complete" then
        (acc.1, acc.2 + 1)
      else acc
  else acc

/-- `_pull_image`: fold the stream through `pull_step` starting from
`(layers, complete) = (0, 0)` and raise the pull error when
`complete < layers`. -/
def pull_image (lines : List PullLine) : Except String Unit :=
  let counts := lines.foldl pull_step (0, 0)
  if counts.2 < counts.1 then Except.error "Error pulling Docker image"
  else Except.ok ()

/-- A line is counted as a pulled layer by the code: empty or absent
`progressDetail`, both `status` and `id` present, status
`"pulling fs layer"` after strip/lower. -/
def countsLayer (l : PullLine) : Bool :=
  if l.progressDetail.getD [] = [] then
    if l.status.isNone || l.id.isNone then false
    else decide (pyLower (pyStrip (l.status.getD "")) = "pulling fs layer")
  else false

/-- A line is counted as a completed layer by the code: empty or absent
`progressDetail`, both `status` and `id` present, status `"pull complete"`
after strip/lower. -/
def countsComplete (l : PullLine) : Bool :=
  if l.progressDetail.getD [] = [] then
    if l.status.isNone || l.id.isNone then false
    else decide (pyLower (pyStrip (l.status.getD "")) = "pull complete")
  else false

/-- The claim's literal layer counter: any stream line whose status is
`"pulling fs layer"` after strip/lower, regardless of `id` or
`progressDetail`. -/
def statusLayer (l : PullLine) : Bool :=
  decide (pyLower (pyStrip (l.status.getD "")) = "pulling fs layer")

/-- The claim's literal completion counter: any stream line whose status is
`"pull complete"` after strip/lower. -/
def statusComplete (l : PullLine) : Bool :=
  decide (pyLower (pyStrip (l.status.getD "")) = "pull complete")

theorem pull_step_eq (acc : Nat × Nat) (l : PullLine) :
    pull_step acc l = (acc.1 + (if countsLayer l then 1 else 0),
                       acc.2 + (if countsComplete l then 1 else 0)) := by
  by_cases hp : l.progressDetail.getD [] = []
  · by_cases hs : (l.status.isNone || l.id.isNone) = true
    · simp [pull_step, countsLayer, countsComplete, hp, hs]
    · by_cases h1 : pyLower (pyStrip (l.status.getD "")) = "pulling fs layer"
      · simp [pull_step, countsLayer, countsComplete, hp, hs, h1]
      · by_cases h2 : pyLower (pyStrip (l.status.getD "")) = "pull complete"
        · simp [pull_step, countsLayer, countsComplete, hp, hs, h1, h2]
        · simp [pull_step, countsLayer, countsComplete, hp, hs, h1, h2]
  · simp [pull_step, countsLayer, countsComplete, hp]

theorem pull_foldl (lines : List PullLine) :
    ∀ a b : Nat, lines.foldl pull_step (a, b)
      = (a + lines.countP countsLayer, b + lines.countP countsComplete) := by
  induction lines with
  | nil => intro a b; simp
  | cons l rest ih =>
    intro a b
    rw [List.foldl_cons, pull_step_eq, ih]
    simp only [List.countP_cons, Prod.mk.injEq]
    constructor <;> omega

/-- The line used by the C3 counterexample: status `"pulling fs layer"`
with no layer `id` field. -/
def c3Line : PullLine := { status := some "Pulling fs layer" }

/-- C3 counterexample: a stream consisting of one `"pulling fs layer"` status
line that carries no `id` field has one more layer line than completion lines
by the claim's literal counting, yet `_pull_image` succeeds, because the code
counts only status lines that also carry an `id` and no progress detail. -/
theorem pull_image_ignores_unidentified_status_line :
    [c3Line].countP statusLayer = 1 ∧
    [c3Line].countP statusComplete = 0 ∧
    pull_image [c3Line] = Except.ok () := by
  refine ⟨by decide, by decide, rfl⟩

/-- C3 (amended): `_pull_image` raises the pull error exactly when the number
of `"pull complete"` status lines is strictly less than the number of
`"pulling fs layer"` status lines, where both counters count only stream
lines that carry both a `status` and an `id` field and whose
`progressDetail` is absent or empty. -/
theorem pull_image_error_iff_counts (lines : List PullLine) :
    pull_image lines = Except.error "Error pulling Docker image" ↔
      lines.countP countsComplete < lines.countP countsLayer := by
  have hfold := pull_foldl lines 0 0
  simp only [pull_image, hfold, Nat.zero_add]
  by_cases h : lines.countP countsComplete < lines.countP countsLayer
  · simp [h]
  · simp [h]

/-- A `"pulling fs layer"` line with a layer id, as the Docker daemon emits
it. -/
def layerLine (i : String) : PullLine :=
  { status := some "Pulling fs layer", id := some i, progressDetail := some [] }

/-- A `"pull complete"` line with a layer id. -/
def completeLine (i : String) : PullLine :=
  { status := some "Pull complete", id := some i }

/-- Witness for the amended C3 theorem at the spec's example: three
`"pulling fs layer"` lines and two `"pull complete"` lines (all carrying
ids) raise the pull error, and three of each succeed. -/
theorem pull_image_error_iff_counts_witness :
    pull_image [layerLine "a", layerLine "b", layerLine "c",
        completeLine "a", completeLine "b"]
      = Except.error "Error pulling Docker image" ∧
    pull_image [layerLine "a", layerLine "b", layerLine "c",
        completeLine "a", completeLine "b", completeLine "c"]
      = Except.ok () :=
  ⟨(pull_image_error_iff_counts [layerLine "a", layerLine "b", layerLine "c",
        completeLine "a", completeLine "b"]).mpr (by decide),
   rfl⟩

/-! ## Namespace Executor (`call_retry`, dockerapi.py 472-495) -/

/-- The outcome of one attempt to launch the subprocess: either `Popen`
raises `OSError`, or the process launches and exits with a code. -/
inductive ProcOutcome
  | launchError
  | exited (code : Int)
deriving DecidableEq

/-- The observable result of `call_retry`: either the launch error is
re-raised, or the process ran and its exit code is returned; both record how
many launch attempts were made. -/
inductive RetryResult
  | raised (attempts : Nat)
  | returned (code : Int) (attempts : Nat)
deriving DecidableEq

/-- The `while tries >= 0` loop of `call_retry`, recursing on the current
value of `tries`: each iteration decrements `tries`, attempts the launch
(outcome `att 0`), returns the exit code on success, and on `OSError`
re-raises when the decremented `tries` is `<= 0`, else sleeps and retries
with the next outcomes. -/
def call_retry_go : Nat → (Nat → ProcOutcome) → RetryResult
  | 0, att =>
    match att 0 with
    | ProcOutcome.exited code => RetryResult.returned code 1
    | ProcOutcome.launchError => RetryResult.raised 1
  | 1, att =>
    match att 0 with
    | ProcOutcome.exited code => RetryResult.returned code 1
    | ProcOutcome.launchError => RetryResult.raised 1
  | Nat.succ (Nat.succ t), att =>
    match att 0 with
    | ProcOutcome.exited code => RetryResult.returned code 1
    | ProcOutcome.launchError =>
      match call_retry_go (Nat.succ t) (fun k => att (k + 1)) with
      | RetryResult.raised a => RetryResult.raised (a + 1)
      | RetryResult.returned code a => RetryResult.returned code (a + 1)

/-- `call_retry(cmd, env, delay, tries)` with the sequence of per-attempt
launch outcomes given by `att` (attempt `k` behaves as `att k`); the `delay`
sleeps between attempts are not modelled (real time). -/
def call_retry (att : Nat → ProcOutcome) (tries : Nat) : RetryResult :=
  call_retry_go tries att

/-- The outcome sequence of the C9 counterexample: the first three launch
attempts fail with `OSError` and the fourth would succeed with exit code 0. -/
def c9Att : Nat → ProcOutcome :=
  fun k => if k < 3 then ProcOutcome.launchError else ProcOutcome.exited 0

/-- C9 counterexample: with `tries = 3` and launch failures on the first
three attempts, `call_retry` re-raises after exactly 3 attempts even though
a fourth attempt (the claimed third additional retry) would have succeeded:
the loop makes at most `tries` total attempts, i.e. `tries - 1` additional
retries, not `tries`. -/
theorem call_retry_exhausts_before_claimed_retries :
    call_retry c9Att 3 = RetryResult.raised 3 ∧
    c9Att 3 = ProcOutcome.exited 0 := by
  exact ⟨rfl, rfl⟩

theorem call_retry_go_all_fail :
    ∀ (t : Nat) (att : Nat → ProcOutcome),
      (∀ k, k < max t 1 → att k = ProcOutcome.launchError) →
      call_retry_go t att = RetryResult.raised (max t 1)
  | 0, att, h => by
    rw [call_retry_go, h 0 (by simp)]
    decide
  | 1, att, h => by
    rw [call_retry_go, h 0 (by simp)]
    decide
  | Nat.succ (Nat.succ t), att, h => by
    have h0 : att 0 = ProcOutcome.launchError := h 0 (by omega)
    have hmax : max (t + 2) 1 = t + 2 := by omega
    have hmax1 : max (t + 1) 1 = t + 1 := by omega
    have hrec := call_retry_go_all_fail (Nat.succ t) (fun k => att (k + 1))
      (fun k hk => h (k + 1) (by omega))
    rw [call_retry_go, h0, hrec, hmax1, hmax]

theorem call_retry_go_first_exit :
    ∀ (t : Nat) (att : Nat → ProcOutcome) (c : Int),
      att 0 = ProcOutcome.exited c →
      call_retry_go t att = RetryResult.returned c 1
  | 0, att, c, h => by rw [call_retry_go, h]
  | 1, att, c, h => by rw [call_retry_go, h]
  | Nat.succ (Nat.succ t), att, c, h => by rw [call_retry_go, h]

theorem call_retry_go_exit_at :
    ∀ (t : Nat) (att : Nat → ProcOutcome) (j : Nat) (c : Int),
      j < max t 1 →
      (∀ k, k < j → att k = ProcOutcome.launchError) →
      att j = ProcOutcome.exited c →
      call_retry_go t att = RetryResult.returned c (j + 1)
  | 0, att, j, c, hj, _, hx => by
    have hj0 : j = 0 := by omega
    subst hj0
    rw [call_retry_go, hx]
  | 1, att, j, c, hj, _, hx => by
    have hj0 : j = 0 := by omega
    subst hj0
    rw [call_retry_go, hx]
  | Nat.succ (Nat.succ t), att, j, c, hj, hfail, hx => by
    cases j with
    | zero => rw [call_retry_go, hx]
    | succ j0 =>
      have h0 : att 0 = ProcOutcome.launchError := hfail 0 (by omega)
      have hrec := call_retry_go_exit_at (Nat.succ t) (fun k => att (k + 1)) j0 c
        (by omega) (fun k hk => hfail (k + 1) (by omega)) hx
      rw [call_retry_go, h0, hrec]

/-- C9 (amended): `call_retry` retries a launch error up to `tries - 1`
additional times (`max tries 1` total launch attempts, the sleeps between
them not modelled) and re-raises the launch error when these are exhausted;
as soon as the process launches, its exit code is returned after that single
attempt without any retry, even when the code is non-zero. -/
theorem call_retry_retry_semantics (att : Nat → ProcOutcome) (tries : Nat) :
    ((∀ k, k < max tries 1 → att k = ProcOutcome.launchError) →
      call_retry att tries = RetryResult.raised (max tries 1)) ∧
    (∀ c, att 0 = ProcOutcome.exited c →
      call_retry att tries = RetryResult.returned c 1) ∧
    (∀ j c, j < max tries 1 →
      (∀ k, k < j → att k = ProcOutcome.launchError) →
      att j = ProcOutcome.exited c →
      call_retry att tries = RetryResult.returned c (j + 1)) :=
  ⟨call_retry_go_all_fail tries att,
   fun c h => call_retry_go_first_exit tries att c h,
   fun j c hj hf hx => call_retry_go_exit_at tries att j c hj hf hx⟩

/-- Witness for the amended C9 theorem: a command whose launch always fails
is re-raised after 3 attempts with `tries = 3`, and a command that launches
immediately with non-zero exit code 2 returns that code after one attempt. -/
theorem call_retry_retry_semantics_witness :
    call_retry (fun _ => ProcOutcome.launchError) 3 = RetryResult.raised 3 ∧
    call_retry (fun _ => ProcOutcome.exited 2) 3 = RetryResult.returned 2 1 :=
  ⟨(call_retry_retry_semantics (fun _ => ProcOutcome.launchError) 3).1
      (fun _ _ => rfl),
   (call_retry_retry_semantics (fun _ => ProcOutcome.exited 2) 3).2.1 2 rfl⟩

/-! ## Namespace Executor (`call_in_netns`, dockerapi.py 650-684) -/

/-- The environment of one `call_in_netns` call: the result of looking up the
container's pid (modelled from the spec: `ChuteContainer.getPID`, module
`chutecontainer` not under src/, raises `ChuteNotFound` for a missing
container, the exception `prepare_port_bindings` catches; `none` models that
exception), the launch outcomes of the `nsenter` invocation, and whether the
`docker exec` fallback (container lookup plus `exec_run`) succeeds. -/
structure NetnsWorld where
  containerPid : Option Nat
  nsenter : Nat → ProcOutcome
  execOk : Bool

/-- The observable result of `call_in_netns`: success recording how many
`docker exec` fallback attempts were made, or an uncaught exception. -/
inductive NetnsResult
  | ok (execAttempts : Nat)
  | chuteNotFound
  | raisedExec
deriving DecidableEq

/-- The exit code of the primary `nsenter` path:
`code = call_retry(cmd, env, tries=1)`, with any launch exception caught and
turned into `-1`. -/
def nsenterCode (w : NetnsWorld) : Int :=
  match call_retry w.nsenter 1 with
  | RetryResult.returned c _ => c
  | RetryResult.raised _ => -1

/-- `call_in_netns(service, env, command, onerror, pid)`: resolve the pid if
not supplied (raising `ChuteNotFound` outside any handler when the container
is gone), run the command through `nsenter`, and on a non-zero (or failed)
primary attempt fall back to `docker exec` exactly once; a fallback failure
is re-raised only when `onerror == "raise"`. -/
def call_in_netns (w : NetnsWorld) (onerror : String) (pid : Option Nat) :
    NetnsResult :=
  match (match pid with
         | some p => some p
         | Option.none => w.containerPid) with
  | Option.none => NetnsResult.chuteNotFound
  | some _ =>
    if nsenterCode w ≠ 0 then
      if w.execOk then NetnsResult.ok 1
      else if onerror = "raise" then NetnsResult.raisedExec
      else NetnsResult.ok 1
    else NetnsResult.ok 0

/-- The world of the C8 counterexample: the container no longer exists, so
the pid lookup raises; the nsenter and exec layers would succeed. -/
def c8World : NetnsWorld :=
  { containerPid := Option.none,
    nsenter := fun _ => ProcOutcome.exited 0,
    execOk := true }

/-- C8 counterexample: with `onerror = "ignore"` but no `pid` argument and a
missing container, `call_in_netns` still raises (`ChuteNotFound` escapes from
the pid-resolution step, which runs before the primary/fallback machinery and
outside the `onerror` policy), so the call does not "never raise" under
`onerror = "ignore"`. -/
theorem call_in_netns_ignore_raises_on_missing_pid :
    call_in_netns c8World "ignore" Option.none = NetnsResult.chuteNotFound := by
  rfl

/-- The number of `docker exec` fallback attempts behind a result: a raised
fallback failure also corresponds to exactly one attempt, while a raised
`ChuteNotFound` precedes any attempt. -/
def execAttempts : NetnsResult → Nat
  | NetnsResult.ok n => n
  | NetnsResult.raisedExec => 1
  | NetnsResult.chuteNotFound => 0

/-- C8 (amended): once the pid is available (passed explicitly or resolved
from a live container), a non-zero or failed primary `nsenter` attempt
triggers the `docker exec` fallback exactly once (and a zero primary exit
triggers none); a fallback failure is raised when `onerror = "raise"` and
suppressed when `onerror = "ignore"`, so with the pid available and
`onerror = "ignore"` the call never raises.  When `pid` is `None` and the
container is gone, the pid lookup itself raises `ChuteNotFound` regardless of
`onerror`. -/
theorem call_in_netns_fallback_policy (w : NetnsWorld) (onerror : String)
    (pid : Option Nat) (p : Nat)
    (hp : (match pid with
           | some q => some q
           | Option.none => w.containerPid) = some p) :
    (nsenterCode w ≠ 0 → execAttempts (call_in_netns w onerror pid) = 1) ∧
    (nsenterCode w = 0 → call_in_netns w onerror pid = NetnsResult.ok 0) ∧
    (call_in_netns w "ignore" pid ≠ NetnsResult.chuteNotFound ∧
      call_in_netns w "ignore" pid ≠ NetnsResult.raisedExec) ∧
    (onerror = "raise" → nsenterCode w ≠ 0 → w.execOk = false →
      call_in_netns w onerror pid = NetnsResult.raisedExec) := by
  refine ⟨?_, ?_, ?_, ?_⟩
  · intro hc
    rw [call_in_netns.eq_def, hp]
    dsimp only
    rw [if_pos hc]
    by_cases he : w.execOk
    · rw [if_pos he]; rfl
    · rw [if_neg he]
      by_cases ho : onerror = "raise"
      · rw [if_pos ho]; rfl
      · rw [if_neg ho]; rfl
  · intro hc
    rw [call_in_netns.eq_def, hp]
    dsimp only
    rw [if_neg (by simp [hc])]
  · rw [call_in_netns.eq_def, hp]
    dsimp only
    by_cases hc : nsenterCode w ≠ 0
    · rw [if_pos hc]
      by_cases he : w.execOk
      · rw [if_pos he]; exact ⟨by simp, by simp⟩
      · rw [if_neg he, if_neg (by decide)]
        exact ⟨by simp, by simp⟩
    · rw [if_neg hc]
      exact ⟨by simp, by simp⟩
  · intro ho hc he
    rw [call_in_netns.eq_def, hp]
    dsimp only
    rw [if_pos hc, if_neg (by simp [he]), if_pos ho]

/-- Witness for the amended C8 theorem: with the pid supplied, a failing
primary path and a failing exec fallback are ignored under
`onerror = "ignore"` (one fallback attempt, no exception) and raised under
`onerror = "raise"`. -/
theorem call_in_netns_fallback_policy_witness :
    execAttempts (call_in_netns
      { containerPid := Option.none,
        nsenter := fun _ => ProcOutcome.exited 1, execOk := false }
      "ignore" (some 42)) = 1 ∧
    call_in_netns
      { containerPid := Option.none,
        nsenter := fun _ => ProcOutcome.exited 1, execOk := false }
      "raise" (some 42) = NetnsResult.raisedExec :=
  ⟨(call_in_netns_fallback_policy
      { containerPid := Option.none,
        nsenter := fun _ => ProcOutcome.exited 1, execOk := false }
      "ignore" (some 42) 42 rfl).1 (by decide),
   (call_in_netns_fallback_policy
      { containerPid := Option.none,
        nsenter := fun _ => ProcOutcome.exited 1, execOk := false }
      "raise" (some 42) 42 rfl).2.2.2 rfl (by decide) rfl⟩

/-! ## Interface Plumber borrowed records (`setup_net_interfaces` /
`cleanup_net_interfaces`, dockerapi.py 498-647) -/

/-- A value stored in a Borrowed Interface Record (a Python dict). -/
inductive RVal
  | s (v : String)
  | n (v : Nat)
deriving DecidableEq

/-- A Borrowed Interface Record: the Python dict appended to
`borrowedInterfaces` by `setup_net_interfaces`. -/
abbrev BRecord := List (String × RVal)

/-- Dictionary subscript `iface[k]`: raises `KeyError` when the key is
absent. -/
def rget (r : BRecord) (k : String) : Except String RVal :=
  match alistFind r k with
  | some v => Except.ok v
  | Option.none => Except.error ("KeyError: " ++ k)

/-- One declared network interface as `setup_net_interfaces` reads it from
the update cache: `iface.get("type", "wifi")`, `iface.get("mode", "ap")`,
the owning service, the internal/external interface names and (for Wi-Fi)
the physical radio id. -/
structure IfaceSpec where
  itype : String := "wifi"
  mode : String := "ap"
  serviceName : String := ""
  internalIntf : String := ""
  externalIntf : String := ""
  phy : String := ""
deriving DecidableEq

/-- The Borrowed Interface Records accumulated by `setup_net_interfaces`:
bridged LAN/VLAN/AP interfaces leave no record; a monitor-mode Wi-Fi radio
is recorded with keys `type`/`pid`/`internal`/`external`/`phy`; a direct
LAN passthrough is recorded with keys `type`/`pid`/`internal`/`external`.
`pidOf` models the container pid lookup per service. -/
def setup_borrowed (pidOf : String → Nat) (ifaces : List IfaceSpec) :
    List BRecord :=
  ifaces.foldl (fun acc iface =>
    let pid := pidOf iface.serviceName
    if iface.itype = "lan" ∨ iface.itype = "vlan" ∨
        (iface.itype = "wifi" ∧ iface.mode = "ap") then
      acc
    else if iface.itype = "wifi" ∧ iface.mode = "monitor" then
      acc ++ [[("type", RVal.s "wifi"), ("pid", RVal.n pid),
               ("internal", RVal.s iface.internalIntf),
               ("external", RVal.s iface.externalIntf),
               ("phy", RVal.s iface.phy)]]
    else if iface.itype = "_lan" then
      acc ++ [[("type", RVal.s "lan"), ("pid", RVal.n pid),
               ("internal", RVal.s iface.internalIntf),
               ("external", RVal.s iface.externalIntf)]]
    else acc) []

/-- One reversal operation issued by `cleanup_net_interfaces`. -/
inductive CleanupOp
  | netns (pid : Nat) (cmd : List String)
  | resetWireless (phy : String) (primary : String)
deriving DecidableEq

/-- The per-record body of the `cleanup_net_interfaces` loop: it first reads
`iface["service"]`, then branches on `iface["type"]` to rename the interface
back, return it to namespace 1 and (for Wi-Fi) reset the wireless device;
all namespace commands run with `onerror="ignore"` and `pid=iface["pid"]`. -/
def cleanup_iface (r : BRecord) : Except String (List CleanupOp) := do
  let _service ← rget r "service"
  let ty ← rget r "type"
  if ty = RVal.s "wifi" then do
    let internal ← rget r "internal"
    let external ← rget r "external"
    let pid ← rget r "pid"
    let phy ← rget r "phy"
    match internal, external, pid, phy with
    | RVal.s i, RVal.s e, RVal.n p, RVal.s ph =>
      pure [CleanupOp.netns p ["ip", "link", "set", "dev", i, "down", "name", e],
            CleanupOp.netns p ["iw", "phy", ph, "set", "netns", "1"],
            CleanupOp.resetWireless ph e]
    | _, _, _, _ => Except.error "TypeError"
  else if ty = RVal.s "lan" then do
    let internal ← rget r "internal"
    let external ← rget r "external"
    let pid ← rget r "pid"
    match internal, external, pid with
    | RVal.s i, RVal.s e, RVal.n p =>
      pure [CleanupOp.netns p
              ["ip", "link", "set", "dev", i, "down", "netns", "1", "name", e]]
    | _, _, _ => Except.error "TypeError"
  else
    pure []

/-- The loop of `cleanup_net_interfaces` over the cached record list. -/
def cleanup_go : List BRecord → Except String (List CleanupOp)
  | [] => Except.ok []
  | r :: rest => do
    let ops ← cleanup_iface r
    let more ← cleanup_go rest
    pure (ops ++ more)

/-- `cleanup_net_interfaces(update)`: read the cached `borrowedInterfaces`
list (returning immediately when the cache entry is absent) and reverse each
record. -/
def cleanup_net_interfaces (cache : Option (List BRecord)) :
    Except String (List CleanupOp) :=
  match cache with
  | Option.none => Except.ok []
  | some recs => cleanup_go recs

/-- The monitor-mode interface of the C4 failing input. -/
def c4MonIface : IfaceSpec :=
  { itype := "wifi", mode := "monitor", serviceName := "main",
    internalIntf := "mon0", externalIntf := "wlan0", phy := "phy0" }

/-- The direct-passthrough LAN interface of the C4 failing input. -/
def c4LanIface : IfaceSpec :=
  { itype := "_lan", serviceName := "main",
    internalIntf := "eth1", externalIntf := "eth0" }

/-- C4: the borrowed records appended by `setup_net_interfaces` store only
`type`/`pid`/`internal`/`external`(/`phy`), but the first statement of the
`cleanup_net_interfaces` loop reads `iface["service"]`, a key setup never
stores — so cleanup raises `KeyError: service` for every borrowed record of
either type instead of reversing it; only the empty/absent cache cases
behave as the claim says (no-op). -/
theorem cleanup_net_interfaces_keyerror :
    setup_borrowed (fun _ => 1234) [c4MonIface]
      = [[("type", RVal.s "wifi"), ("pid", RVal.n 1234),
          ("internal", RVal.s "mon0"), ("external", RVal.s "wlan0"),
          ("phy", RVal.s "phy0")]] ∧
    (∀ rec ∈ setup_borrowed (fun _ => 1234) [c4MonIface, c4LanIface],
      alistFind rec "service" = Option.none) ∧
    cleanup_net_interfaces (some (setup_borrowed (fun _ => 1234) [c4MonIface]))
      = Except.error "KeyError: service" ∧
    cleanup_net_interfaces (some (setup_borrowed (fun _ => 1234) [c4LanIface]))
      = Except.error "KeyError: service" ∧
    cleanup_net_interfaces Option.none = Except.ok [] ∧
    cleanup_net_interfaces (some []) = Except.ok [] := by
  refine ⟨rfl, by decide, rfl, rfl, rfl, rfl⟩

end Paradrop
